import Mathlib

/-!
Shallow embedding of the debug-domain log-level override system of
`pkg/logger/logger.go` (cozy-stack).

Modelling conventions:
* Time instants and durations are `Int` nanoseconds (Go `time.Time` /
  `time.Duration`); the current instant is passed explicitly as `now`.
* References (output sinks, formatters, hooks) are modelled as `Nat`
  identities; `logrus.New` allocates a fresh formatter reference from a
  counter carried in the state.
* The package-level mutable registry `loggers` is an association list from
  domain to `domainEntry`, threaded explicitly through every operation;
  the write lock is modelled by the sequential state passing.
* Redis effects are modelled by an oracle (`RedisClient`, giving each
  command's outcome) together with an explicit trace of issued commands.
-/

namespace CozyLogger

/-- logrus log levels (`logrus.Level`). -/
inductive Level where
  | panic
  | fatal
  | error
  | warn
  | info
  | debug
  | trace
  deriving DecidableEq, Repr

/-- A logrus logger (`logrus.Logger`): output sink reference, hook chain,
formatter reference, level. Hook and sink objects are identified by `Nat`
references. -/
structure Logger where
  out : Nat
  hooks : List Nat
  formatter : Nat
  level : Level
  deriving DecidableEq, Repr

/-- A logrus entry (`logrus.Entry`): the result of `WithField`, keeping the
underlying logger and the attached fields. -/
structure LogEntry where
  logger : Logger
  fields : List (String × String)
  deriving DecidableEq, Repr

/-- The reference of `os.Stderr`, the default sink of `logrus.New()`. -/
def stderrRef : Nat := 0

/-- The reference of `ioutil.Discard`. -/
def discardRef : Nat := 1

/-- The hook reference produced by `syslogHook`.

Modelled from the spec: `syslogHook` lives in a platform-specific file that
is not part of the analysed sources; per the spec the per-domain logger is
wired to the system log sink when syslog is configured, so the hook
constructor is modelled as always succeeding with this fixed reference. -/
def syslogHookRef : Nat := 2

/-- Modelled from the spec: `syslogHook` returns the syslog hook (or an
error on platforms without syslog; modelled as always succeeding). -/
def syslogHook : Except String Nat := .ok syslogHookRef

/-- Struct `domainEntry` from logger.go: the per-domain logger and its optional
absolute expiry instant (`*time.Time`, `none` = nil pointer). -/
structure domainEntry where
  log : Logger
  expiredAt : Option Int
  deriving DecidableEq, Repr

/-- Method `Expired` of `domainEntry`: nil expiry is never expired; otherwise
expired iff the stored instant is strictly before `now`
(`entry.expiredAt.Before(time.Now())`). -/
def domainEntry.Expired (entry : domainEntry) (now : Int) : Bool :=
  match entry.expiredAt with
  | none => false
  | some t => t < now

/-- The mutable package state of logger.go: the `loggers` registry plus a
fresh-reference allocator standing for Go heap allocation of new formatter
objects. -/
structure LoggerState where
  loggers : List (String × domainEntry)
  nextRef : Nat
  deriving DecidableEq, Repr

/-- A redis error (modelled as its message). -/
abbrev RErr := String

/-- Outcome oracle for the redis client: each field gives the error (if any)
a command would report. -/
structure RedisClient where
  publishErr : String → String → Option RErr
  setErr : String → Int → Option RErr
  delErr : String → Option RErr

/-- Struct `Options` from logger.go (the redis client is its outcome oracle). -/
structure Options where
  syslog : Bool
  level : String
  redis : Option RedisClient

/-- Function `logrus.New()`: a fresh logger with the stderr sink, empty hooks, a
newly allocated `TextFormatter`, and info level. `fresh` is the reference
allocated for the new formatter. -/
def logrusNew (fresh : Nat) : Logger :=
  { out := stderrRef, hooks := [], formatter := fresh, level := .info }

/-- Function `Clone` from logger.go: new logger sharing `Out` and `Formatter` with
the input, the same level, and the hook collection copied entry by entry
into a fresh collection. -/
def Clone (l : Logger) : Logger :=
  { out := l.out, hooks := l.hooks, formatter := l.formatter, level := l.level }

/-- The logger-construction part of `addDebugDomain` (logger.go lines
135-143): `logrus.New()` with the level forced to debug; when syslog is
configured and the hook construction succeeds, add the hook and discard
direct output. `fresh` is the reference the new formatter is allocated
at. -/
def newDebugLogger (opts : Options) (fresh : Nat) : Logger :=
  let l1 := { logrusNew fresh with level := Level.debug }
  if opts.syslog then
    match syslogHook with
    | .ok h => { l1 with hooks := l1.hooks ++ [h], out := discardRef }
    | .error _ => l1
  else l1

/-- Function `addDebugDomain` from logger.go: under the write lock, no-op when an
entry for the domain already exists; otherwise build a fresh logger
(`logrus.New()`), force its level to debug, wire syslog when configured,
and store it with expiry `time.Now().Add(ttl)`. -/
def addDebugDomain (opts : Options) (st : LoggerState) (now : Int)
    (domain : String) (ttl : Int) : LoggerState :=
  match st.loggers.lookup domain with
  | some _ => st
  | none =>
    let expiredAt := now + ttl
    { loggers := (domain, ⟨newDebugLogger opts st.nextRef, some expiredAt⟩) :: st.loggers,
      nextRef := st.nextRef + 1 }

/-- Function `removeDebugDomain` from logger.go: under the write lock, delete the
registry binding for the domain (`delete(loggers, domain)`). -/
def removeDebugDomain (st : LoggerState) (domain : String) : LoggerState :=
  { st with loggers := st.loggers.eraseP (fun p => p.1 == domain) }

/-- Function `WithDomain` from logger.go: look up the registry; an unexpired entry
yields its logger tagged with the domain; an expired entry is evicted and
the base logger is returned; a missing entry yields the base logger. `base`
is the process's standard logger (`logrus.WithField` target). Returns the
produced entry together with the (possibly updated) state. -/
def WithDomain (st : LoggerState) (now : Int) (base : Logger)
    (domain : String) : LogEntry × LoggerState :=
  match st.loggers.lookup domain with
  | some entry =>
    if ¬ entry.Expired now then
      (⟨entry.log, [("domain", domain)]⟩, st)
    else
      (⟨base, [("domain", domain)]⟩, removeDebugDomain st domain)
  | none => (⟨base, [("domain", domain)]⟩, st)

/-- Function `DebugExpiration` from logger.go: the stored expiry pointer of the
domain's entry, or nil when no entry exists. No expiry check, no eviction. -/
def DebugExpiration (st : LoggerState) (domain : String) : Option Int :=
  match st.loggers.lookup domain with
  | some entry => entry.expiredAt
  | none => none

/-- Function `IsDebug` from logger.go: whether the entry's logger level is debug. -/
def IsDebug (entry : LogEntry) : Bool :=
  entry.logger.level = Level.debug

/-! ### Go `time.Duration.String` (stdlib collaborator of `publishDebug`) -/

/-- Decimal digits of a Nat, accumulator style (Go `fmtInt`; prints "0" for
zero). The first argument is fuel, always called with fuel `n + 1`. -/
def fmtIntAux : Nat → Nat → List Char → List Char
  | 0, _, acc => acc
  | fuel + 1, n, acc =>
    if n < 10 then Char.ofNat (48 + n) :: acc
    else fmtIntAux fuel (n / 10) (Char.ofNat (48 + n % 10) :: acc)

/-- Go `fmtInt`: decimal representation of a Nat, "0" included. -/
def fmtInt (n : Nat) : List Char :=
  fmtIntAux (n + 1) n []

/-- Go `fmtFrac`: format the `prec` least significant decimal digits of `v`
as a fraction, omitting trailing zeros and, when the whole fraction is
zero, the decimal point as well; return the fraction text and `v` with
those digits stripped. -/
def fmtFracAux : Nat → Nat → Bool → List Char → List Char × Nat
  | 0, v, pr, acc => (if pr then '.' :: acc else acc, v)
  | i + 1, v, pr, acc =>
    let digit := v % 10
    let pr := pr || decide (digit ≠ 0)
    let acc := if pr then Char.ofNat (48 + digit) :: acc else acc
    fmtFracAux i (v / 10) pr acc

/-- Go `fmtFrac`, entry point. -/
def fmtFrac (v : Nat) (prec : Nat) : List Char × Nat :=
  fmtFracAux prec v false []

/-- Go `time.Duration.String`: durations below one second use ns/µs/ms with
a fraction; otherwise seconds with up to nine fractional digits, then
minutes and hours. Faithful to the stdlib algorithm. -/
def durationString (d : Int) : String :=
  let u := d.natAbs
  let core : List Char :=
    if u < 1000000000 then
      if u = 0 then ['0', 's']
      else if u < 1000 then fmtInt u ++ ['n', 's']
      else if u < 1000000 then
        let (fr, v) := fmtFrac u 3
        fmtInt v ++ fr ++ ['µ', 's']
      else
        let (fr, v) := fmtFrac u 6
        fmtInt v ++ fr ++ ['m', 's']
    else
      let (fr, sec) := fmtFrac u 9
      let tail := fmtInt (sec % 60) ++ fr ++ ['s']
      let mins := sec / 60
      if mins > 0 then
        let hrs := mins / 60
        (if hrs > 0 then fmtInt hrs ++ ['h'] else []) ++
          fmtInt (mins % 60) ++ ['m'] ++ tail
      else tail
  String.mk (if d < 0 then '-' :: core else core)

/-! ### Durable sync layer: send path -/

/-- The constants of logger.go. -/
def debugRedisAddChannel : String := "add:log-debug"

/-- The removal channel constant of logger.go. -/
def debugRedisRmvChannel : String := "rmv:log-debug"

/-- The durable-key prefix constant of logger.go (`debugRedisPrefix`). -/
def debugRedisKeyPre : String := "debug:"

/-- One redis command issued by the send path, in issue order. -/
inductive RedisOp where
  | publish (channel payload : String)
  | set (key : String) (ttl : Int)
  | del (key : String)
  deriving DecidableEq, Repr

/-- Function `publishDebug` from logger.go: publish `"<domain>/<ttl.String()>"` on
the channel; on publish failure return that error at once; otherwise set
the durable key `"debug:"+domain` with the ttl (add channel) or delete it
(any other channel), returning that step's outcome. The trace records the
commands actually issued, in order. -/
def publishDebug (cli : RedisClient) (channel domain : String) (ttl : Int) :
    Option RErr × List RedisOp :=
  let payload := domain ++ "/" ++ durationString ttl
  match cli.publishErr channel payload with
  | some e => (some e, [RedisOp.publish channel payload])
  | none =>
    let key := debugRedisKeyPre ++ domain
    if channel = debugRedisAddChannel then
      (cli.setErr key ttl, [RedisOp.publish channel payload, RedisOp.set key ttl])
    else
      (cli.delErr key, [RedisOp.publish channel payload, RedisOp.del key])

/-- Result of a control-API send call: returned error, redis trace, and the
registry state afterwards. -/
structure SendResult where
  err : Option RErr
  ops : List RedisOp
  state : LoggerState

/-- Function `AddDebugDomain` from logger.go: in distributed mode delegate to
`publishDebug` on the add channel (registry untouched locally); in
local-only mode perform `addDebugDomain` and return nil. -/
def AddDebugDomain (opts : Options) (st : LoggerState) (now : Int)
    (domain : String) (ttl : Int) : SendResult :=
  match opts.redis with
  | some cli =>
    let (e, ops) := publishDebug cli debugRedisAddChannel domain ttl
    ⟨e, ops, st⟩
  | none => ⟨none, [], addDebugDomain opts st now domain ttl⟩

/-- Function `RemoveDebugDomain` from logger.go: in distributed mode delegate to
`publishDebug` on the removal channel with a zero ttl; in local-only mode
perform `removeDebugDomain` and return nil. -/
def RemoveDebugDomain (opts : Options) (st : LoggerState) (domain : String) :
    SendResult :=
  match opts.redis with
  | some cli =>
    let (e, ops) := publishDebug cli debugRedisRmvChannel domain 0
    ⟨e, ops, st⟩
  | none => ⟨none, [], removeDebugDomain st domain⟩

/-! ### Go stdlib string helpers used by the receive/bootstrap paths -/

/-- Go `strings.Split(s, "/")` on the character level: split at every
slash, keeping empty segments ('/' is ASCII, so byte and character
splitting agree). -/
def splitSlashChars : List Char → List (List Char)
  | [] => [[]]
  | c :: rest =>
    let r := splitSlashChars rest
    if c = '/' then [] :: r
    else (c :: r.headD []) :: r.tail

/-- Go `strings.Split(s, "/")`. -/
def splitSlash (s : String) : List String :=
  (splitSlashChars s.data).map String.mk

/-- Whether `pre` is a character-level prefix of `cs`
(Go `strings.HasPrefix`). -/
def hasPre : List Char → List Char → Bool
  | _, [] => true
  | [], _ :: _ => false
  | c :: cs, p :: ps => c = p && hasPre cs ps

/-- Go `strings.TrimPrefix(s, pre)`: drop `pre` when it is a prefix,
otherwise return `s` unchanged. -/
def trimPre (s pre : String) : String :=
  if hasPre s.data pre.data then String.mk (s.data.drop pre.data.length) else s

/-! ### Go `time.ParseDuration` (stdlib collaborator of the receive path)

All error paths of the Go function return a zero duration together with the
error; the model returns `none` for an error, and the caller that discards
the error (`ttl, _ = time.ParseDuration(...)`) uses `(… ).getD 0`. -/

/-- Constant `math.MaxInt64`, the overflow bound of Go durations. -/
def maxInt64 : Int := 9223372036854775807

/-- Whether a character is an ASCII decimal digit. -/
def isDigitCh (c : Char) : Bool :=
  48 ≤ c.toNat && c.toNat ≤ 57

/-- Go `leadingInt`: consume leading decimal digits into an Int, failing on
int64 overflow (the post-multiplication sign check of the Go code is
equivalent to exceeding `maxInt64`). Returns the value and the rest. -/
def leadingInt : List Char → Int → Option (Int × List Char)
  | [], x => some (x, [])
  | c :: cs, x =>
    if ¬ isDigitCh c then some (x, c :: cs)
    else if x > maxInt64 / 10 then none
    else
      let y := x * 10 + (c.toNat - 48 : Int)
      if y > maxInt64 then none
      else leadingInt cs y

/-- Go `leadingFraction`: consume leading decimal digits as a fraction
numerator with a power-of-ten scale; on overflow stop updating but keep
consuming. Returns numerator, scale and the rest. -/
def leadingFraction : List Char → Int → Int → Bool → Int × Int × List Char
  | [], x, scale, _ => (x, scale, [])
  | c :: cs, x, scale, ov =>
    if ¬ isDigitCh c then (x, scale, c :: cs)
    else if ov then leadingFraction cs x scale ov
    else if x > maxInt64 / 10 then leadingFraction cs x scale true
    else
      let y := x * 10 + (c.toNat - 48 : Int)
      if y > maxInt64 then leadingFraction cs x scale true
      else leadingFraction cs y (scale * 10) false

/-- The `unitMap` of Go `time.ParseDuration` (values in nanoseconds). -/
def unitMapLookup : List Char → Option Int
  | ['n', 's'] => some 1
  | ['u', 's'] => some 1000
  | ['µ', 's'] => some 1000
  | ['μ', 's'] => some 1000
  | ['m', 's'] => some 1000000
  | ['s'] => some 1000000000
  | ['m'] => some 60000000000
  | ['h'] => some 3600000000000
  | _ => none

/-- Length of the leading unit segment: characters up to the next digit or
dot (the unit-consuming loop of Go `time.ParseDuration`). -/
def unitLen : List Char → Nat
  | [] => 0
  | c :: cs => if c = '.' || isDigitCh c then 0 else 1 + unitLen cs

/-- The main loop of Go `time.ParseDuration`, one `<number><unit>` element
per iteration. The fuel argument is called with (length + 1), enough since
every iteration consumes at least the unit's character. The fractional
contribution `f*unit/scale` is computed exactly where Go uses float64
arithmetic (identical on all inputs whose fraction fits the float
precision; no claim depends on the difference). -/
def pdLoop : Nat → List Char → Int → Option Int
  | 0, _, _ => none
  | fuel + 1, s, d =>
    match s with
    | [] => some d
    | c :: _ =>
      if ¬ (c = '.' || isDigitCh c) then none
      else
        match leadingInt s 0 with
        | none => none
        | some (v, s1) =>
          let pre := s1.length ≠ s.length
          let fps : Int × Int × List Char × Bool :=
            match s1 with
            | '.' :: s1' =>
              let (f, scale, s2) := leadingFraction s1' 0 1 false
              (f, scale, s2, s2.length ≠ s1'.length)
            | _ => (0, 1, s1, false)
          let f := fps.1
          let scale := fps.2.1
          let s2 := fps.2.2.1
          let post := fps.2.2.2
          if ¬ pre ∧ ¬ post then none
          else
            let i := unitLen s2
            if i = 0 then none
            else
              match unitMapLookup (s2.take i) with
              | none => none
              | some unit =>
                if v > maxInt64 / unit then none
                else
                  let v1 := v * unit
                  let v2 := if f > 0 then v1 + f * unit / scale else v1
                  if v2 > maxInt64 then none
                  else
                    let d1 := d + v2
                    if d1 > maxInt64 then none
                    else pdLoop fuel (s2.drop i) d1

/-- Go `time.ParseDuration`: optional sign, the special case "0", then a
sequence of `<number><unit>` elements. `none` models the error return. -/
def ParseDuration (str : String) : Option Int :=
  let s0 := str.data
  let ns : Bool × List Char :=
    match s0 with
    | '-' :: rest => (true, rest)
    | '+' :: rest => (false, rest)
    | _ => (false, s0)
  let neg := ns.1
  let s := ns.2
  if s = ['0'] then some 0
  else if s = [] then none
  else
    match pdLoop (s.length + 1) s 0 with
    | none => none
    | some d => some (if neg then -d else d)

/-! ### Durable sync layer: receive path and bootstrap -/

/-- A message delivered on the pub/sub subscription. -/
structure RedisMsg where
  channel : String
  payload : String
  deriving DecidableEq, Repr

/-- The body of the `subscribeLoggersDebug` loop for one message: split the
payload on slashes, take the first segment as the domain; on the add
channel parse the ttl segment when present (a parse error leaves the zero
duration) and add the domain; on the removal channel remove it. -/
def handleDebugMsg (opts : Options) (st : LoggerState) (now : Int)
    (msg : RedisMsg) : LoggerState :=
  let parts := splitSlash msg.payload
  let domain := parts.headD ""
  if msg.channel = debugRedisAddChannel then
    let ttl : Int :=
      if parts.length ≥ 2 then (ParseDuration (parts.getD 1 "")).getD 0 else 0
    addDebugDomain opts st now domain ttl
  else if msg.channel = debugRedisRmvChannel then
    removeDebugDomain st domain
  else st

/-- Function `subscribeLoggersDebug` from logger.go, over a finite delivered-message
trace: fold the per-message body over the messages in order. -/
def subscribeLoggersDebug (opts : Options) (st : LoggerState) (now : Int)
    (msgs : List RedisMsg) : LoggerState :=
  msgs.foldl (fun s msg => handleDebugMsg opts s now msg) st

/-- Function `loadDebug` from logger.go: with the result of `KEYS debug:*` and a TTL
oracle per key, abort silently when the listing failed; otherwise register
each key's trimmed domain with its remaining ttl, skipping keys whose TTL
query failed. -/
def loadDebug (opts : Options) (st : LoggerState) (now : Int)
    (keysResult : Except RErr (List String))
    (ttlResult : String → Except RErr Int) : LoggerState :=
  match keysResult with
  | .error _ => st
  | .ok keys =>
    keys.foldl
      (fun s key =>
        match ttlResult key with
        | .error _ => s
        | .ok ttl => addDebugDomain opts s now (trimPre key debugRedisKeyPre) ttl)
      st

/-! ### Shared registry lemmas -/

/-- Lookup misses when the key is not among the stored keys. -/
theorem lookup_eq_none_of_not_mem_keys (d : String) :
    ∀ l : List (String × domainEntry), d ∉ l.map Prod.fst →
      List.lookup d l = none
  | [], _ => rfl
  | (k, v) :: tl, h => by
    simp only [List.map_cons, List.mem_cons] at h
    push_neg at h
    have hk : (d == k) = false := beq_eq_false_iff_ne.mpr h.1
    simp [List.lookup, hk, lookup_eq_none_of_not_mem_keys d tl h.2]

/-- With no duplicate keys, erasing the binding of `d` makes lookup of `d`
miss. -/
theorem lookup_eraseP_eq_none (d : String) :
    ∀ l : List (String × domainEntry), (l.map Prod.fst).Nodup →
      List.lookup d (l.eraseP (fun p => p.1 == d)) = none
  | [], _ => rfl
  | (k, v) :: tl, h => by
    simp only [List.map_cons, List.nodup_cons] at h
    by_cases hk : k = d
    · subst hk
      have herase : List.eraseP (fun p => p.1 == k) ((k, v) :: tl) = tl := by
        simp [List.eraseP_cons]
      rw [herase]
      exact lookup_eq_none_of_not_mem_keys k tl h.1
    · have herase : List.eraseP (fun p => p.1 == d) ((k, v) :: tl)
          = (k, v) :: List.eraseP (fun p => p.1 == d) tl := by
        simp [List.eraseP_cons, hk]
      rw [herase]
      have hk' : (d == k) = false := beq_eq_false_iff_ne.mpr (Ne.symm hk)
      simp [List.lookup, hk', lookup_eraseP_eq_none d tl h.2]

/-- Adding an absent domain stores the fresh debug logger with expiry
`now + ttl`. -/
theorem lookup_addDebugDomain_self (opts : Options) (st : LoggerState)
    (now ttl : Int) (d : String) (h : st.loggers.lookup d = none) :
    (addDebugDomain opts st now d ttl).loggers.lookup d =
      some ⟨newDebugLogger opts st.nextRef, some (now + ttl)⟩ := by
  simp [addDebugDomain, h, List.lookup]

/-- Adding a present domain is a no-op. -/
theorem addDebugDomain_noop (opts : Options) (st : LoggerState)
    (now ttl : Int) (d : String) (e : domainEntry)
    (h : st.loggers.lookup d = some e) :
    addDebugDomain opts st now d ttl = st := by
  simp [addDebugDomain, h]

/-! ### Claim theorems -/

/-- Local-only options used by the concrete witnesses. -/
def localOpts : Options := ⟨false, "info", none⟩

/-- The logger a local activation stores when the allocator is at 3. -/
def wLogger : Logger := newDebugLogger localOpts 3

/-- A registry state holding one entry for "d" expiring at instant 50. -/
def wState : LoggerState := ⟨[("d", ⟨wLogger, some 50⟩)], 4⟩

/-- A configured base logger used by the concrete witnesses. -/
def wBase : Logger := ⟨5, [7], 6, Level.info⟩

/-- C1: `WithDomain` (the spec's `loggerFor`) returns the stored per-domain
logger tagged with the domain when the registry holds an unexpired entry
(debug-level whenever the entry's logger is, which every activation path
guarantees), evicts the entry first and returns the base logger tagged with
the domain when the entry is expired, and returns the base logger tagged
with the domain when no entry exists; being a total function it never
fails. -/
theorem claim_C1_withDomain_cases (st : LoggerState) (now : Int)
    (base : Logger) (d : String) :
    (∀ e, st.loggers.lookup d = some e → e.Expired now = false →
        WithDomain st now base d = (⟨e.log, [("domain", d)]⟩, st)) ∧
    (∀ e, st.loggers.lookup d = some e → e.log.level = Level.debug →
        e.Expired now = false → IsDebug (WithDomain st now base d).1 = true) ∧
    (∀ e, st.loggers.lookup d = some e → e.Expired now = true →
        WithDomain st now base d =
          (⟨base, [("domain", d)]⟩, removeDebugDomain st d)) ∧
    (st.loggers.lookup d = none →
        WithDomain st now base d = (⟨base, [("domain", d)]⟩, st)) := by
  refine ⟨?_, ?_, ?_, ?_⟩
  · intro e he hexp
    simp [WithDomain, he, hexp]
  · intro e he hlvl hexp
    simp [WithDomain, he, hexp, IsDebug, hlvl]
  · intro e he hexp
    simp [WithDomain, he, hexp]
  · intro h
    simp [WithDomain, h]

/-- Witness for C1 at concrete states: unexpired hit, expired hit (with the
eviction), and miss. -/
theorem claim_C1_witness :
    (WithDomain wState 10 wBase "d" = (⟨wLogger, [("domain", "d")]⟩, wState) ∧
      IsDebug (WithDomain wState 10 wBase "d").1 = true) ∧
    WithDomain wState 100 wBase "d" =
      (⟨wBase, [("domain", "d")]⟩, ⟨[], 4⟩) ∧
    WithDomain wState 100 wBase "missing" =
      (⟨wBase, [("domain", "missing")]⟩, wState) := by
  refine ⟨⟨?_, ?_⟩, ?_, ?_⟩
  · exact (claim_C1_withDomain_cases wState 10 wBase "d").1
      ⟨wLogger, some 50⟩ rfl rfl
  · exact (claim_C1_withDomain_cases wState 10 wBase "d").2.1
      ⟨wLogger, some 50⟩ rfl rfl rfl
  · exact ((claim_C1_withDomain_cases wState 100 wBase "d").2.2.1
      ⟨wLogger, some 50⟩ rfl rfl).trans (by decide)
  · exact (claim_C1_withDomain_cases wState 100 wBase "missing").2.2.2 rfl

/-- C2: in local-only mode a first activation of an absent domain stores
the entry with expiry `now1 + ttl1`, and an immediately following second
activation with any other ttl leaves the state (hence that entry)
unchanged and reports success: the second put is a silent no-op. -/
theorem claim_C2_activate_idempotent (opts : Options) (st : LoggerState)
    (now1 now2 ttl1 ttl2 : Int) (d : String)
    (hredis : opts.redis = none) (habs : st.loggers.lookup d = none) :
    (AddDebugDomain opts st now1 d ttl1).state.loggers.lookup d =
        some ⟨newDebugLogger opts st.nextRef, some (now1 + ttl1)⟩ ∧
    (AddDebugDomain opts (AddDebugDomain opts st now1 d ttl1).state
        now2 d ttl2).state = (AddDebugDomain opts st now1 d ttl1).state ∧
    (AddDebugDomain opts (AddDebugDomain opts st now1 d ttl1).state
        now2 d ttl2).err = none := by
  have h1 : (AddDebugDomain opts st now1 d ttl1).state =
      addDebugDomain opts st now1 d ttl1 := by
    simp [AddDebugDomain, hredis]
  have hmem := lookup_addDebugDomain_self opts st now1 ttl1 d habs
  refine ⟨h1 ▸ hmem, ?_, ?_⟩
  · rw [h1]
    simp [AddDebugDomain, hredis,
      addDebugDomain_noop opts _ now2 ttl2 d _ hmem]
  · simp [AddDebugDomain, hredis]

/-- Witness for C2: activate "example.com" for 5 minutes at instant 100,
then again for 60ns at instant 200; the entry keeps the first expiry. -/
theorem claim_C2_witness :
    (AddDebugDomain localOpts ⟨[], 0⟩ 100 "example.com"
        300000000000).state.loggers.lookup "example.com" =
      some ⟨newDebugLogger localOpts 0, some 300000000100⟩ ∧
    (AddDebugDomain localOpts (AddDebugDomain localOpts ⟨[], 0⟩ 100
        "example.com" 300000000000).state 200 "example.com" 60).state =
      (AddDebugDomain localOpts ⟨[], 0⟩ 100 "example.com" 300000000000).state ∧
    (AddDebugDomain localOpts (AddDebugDomain localOpts ⟨[], 0⟩ 100
        "example.com" 300000000000).state 200 "example.com" 60).err = none := by
  have h := claim_C2_activate_idempotent localOpts ⟨[], 0⟩ 100 200
    300000000000 60 "example.com" rfl rfl
  exact ⟨h.1.trans (by norm_num), h.2.1, h.2.2⟩

/-- Counterexample to C3: activating "example.com" locally against a
process whose base logger has sink 5, hook chain [7] and formatter 6
produces a per-domain logger whose sink is the stderr default, whose hook
chain is empty and whose formatter is freshly allocated — none of the
three is shared with (or copied from) the base. `addDebugDomain` builds
its logger with `logrus.New()`, not with `Clone`. -/
theorem claim_C3_counterexample :
    ((AddDebugDomain localOpts ⟨[], 10⟩ 100 "example.com"
        300000000000).state.loggers.lookup "example.com").map domainEntry.log =
      some (newDebugLogger localOpts 10) ∧
    ¬ ((newDebugLogger localOpts 10).out = wBase.out) ∧
    ¬ ((newDebugLogger localOpts 10).formatter = wBase.formatter) ∧
    ¬ ((newDebugLogger localOpts 10).hooks = wBase.hooks) := by
  exact ⟨by decide, by decide, by decide, by decide⟩

/-- C3 amended: the per-domain logger stored by a local activation is the
freshly built `newDebugLogger`: stderr sink, empty hook chain, a newly
allocated formatter and level fixed to debug (with syslog configured it
instead discards output and carries the syslog hook); it shares nothing
with the process's base logger. The separate `Clone` helper does keep the
base's sink, formatter, hook contents and level, but the activation path
never calls it. -/
theorem claim_C3_amended (opts : Options) (st : LoggerState) (now ttl : Int)
    (d : String) (hredis : opts.redis = none)
    (habs : st.loggers.lookup d = none) :
    ((AddDebugDomain opts st now d ttl).state.loggers.lookup d).map
        domainEntry.log = some (newDebugLogger opts st.nextRef) ∧
    (opts.syslog = false →
      newDebugLogger opts st.nextRef =
        ⟨stderrRef, [], st.nextRef, Level.debug⟩) ∧
    (opts.syslog = true →
      newDebugLogger opts st.nextRef =
        ⟨discardRef, [syslogHookRef], st.nextRef, Level.debug⟩) ∧
    (∀ l : Logger, (Clone l).out = l.out ∧ (Clone l).formatter = l.formatter ∧
      (Clone l).hooks = l.hooks ∧ (Clone l).level = l.level) := by
  refine ⟨?_, ?_, ?_, ?_⟩
  · have h1 : (AddDebugDomain opts st now d ttl).state =
        addDebugDomain opts st now d ttl := by
      simp [AddDebugDomain, hredis]
    rw [h1, lookup_addDebugDomain_self opts st now ttl d habs]
    rfl
  · intro hs
    simp [newDebugLogger, logrusNew, hs]
  · intro hs
    simp [newDebugLogger, logrusNew, hs, syslogHook]
  · intro l
    exact ⟨rfl, rfl, rfl, rfl⟩

/-- Witness for the amended C3 at a concrete local activation. -/
theorem claim_C3_amended_witness :
    ((AddDebugDomain localOpts ⟨[], 10⟩ 100 "example.com"
        300000000000).state.loggers.lookup "example.com").map
        domainEntry.log = some (newDebugLogger localOpts 10) ∧
    newDebugLogger localOpts 10 = ⟨stderrRef, [], 10, Level.debug⟩ ∧
    (Clone wBase).out = wBase.out := by
  have h := claim_C3_amended localOpts ⟨[], 10⟩ 100 300000000000
    "example.com" rfl rfl
  exact ⟨h.1, h.2.1 rfl, (h.2.2.2 wBase).1⟩

/-- Counterexample to C4: a local activation with a zero duration at
instant 100 stores an entry whose expiry is present (the instant 100
itself), not absent. -/
theorem claim_C4_counterexample :
    ((AddDebugDomain localOpts ⟨[], 10⟩ 100 "example.com"
        0).state.loggers.lookup "example.com").map domainEntry.expiredAt =
      some (some 100) ∧
    some (100 : Int) ≠ (none : Option Int) := by
  exact ⟨by decide, by decide⟩

/-- C4 amended: an entry with an absent expiry is indeed never treated as
expired, but no activation path produces one — a local activation with a
zero duration stores a present expiry equal to the activation instant
(`time.Now().Add(0)`). -/
theorem claim_C4_amended (opts : Options) (st : LoggerState) (now : Int)
    (d : String) (hredis : opts.redis = none)
    (habs : st.loggers.lookup d = none) :
    (∀ (e : domainEntry) (t : Int), e.expiredAt = none →
        e.Expired t = false) ∧
    ((AddDebugDomain opts st now d 0).state.loggers.lookup d).map
        domainEntry.expiredAt = some (some now) := by
  constructor
  · intro e t he
    simp [domainEntry.Expired, he]
  · have h1 : (AddDebugDomain opts st now d 0).state =
        addDebugDomain opts st now d 0 := by
      simp [AddDebugDomain, hredis]
    rw [h1, lookup_addDebugDomain_self opts st now 0 d habs]
    simp

/-- Witness for the amended C4 at a concrete zero-duration activation. -/
theorem claim_C4_amended_witness :
    (domainEntry.Expired ⟨wLogger, none⟩ 1000000 = false) ∧
    ((AddDebugDomain localOpts ⟨[], 10⟩ 100 "example.com"
        0).state.loggers.lookup "example.com").map domainEntry.expiredAt =
      some (some 100) := by
  have h := claim_C4_amended localOpts ⟨[], 10⟩ 100 "example.com" rfl rfl
  exact ⟨h.1 ⟨wLogger, none⟩ 1000000 rfl, h.2⟩

/-- C9: in local-only mode, activating an absent domain and then
deactivating it restores the absent state: the registry is back to the
original bindings, the next `WithDomain` returns the base logger tagged
with the domain (leaving the state untouched), and `DebugExpiration`
reports nil. -/
theorem claim_C9_round_trip (opts : Options) (st : LoggerState)
    (now1 now2 ttl : Int) (d : String) (base : Logger)
    (hredis : opts.redis = none) (_hpos : 0 < ttl)
    (habs : st.loggers.lookup d = none) :
    (RemoveDebugDomain opts (AddDebugDomain opts st now1 d ttl).state
        d).state.loggers = st.loggers ∧
    WithDomain (RemoveDebugDomain opts
        (AddDebugDomain opts st now1 d ttl).state d).state now2 base d =
      (⟨base, [("domain", d)]⟩,
        (RemoveDebugDomain opts
          (AddDebugDomain opts st now1 d ttl).state d).state) ∧
    DebugExpiration (RemoveDebugDomain opts
        (AddDebugDomain opts st now1 d ttl).state d).state d = none := by
  have h1 : (AddDebugDomain opts st now1 d ttl).state =
      addDebugDomain opts st now1 d ttl := by
    simp [AddDebugDomain, hredis]
  have h2 : ∀ x : LoggerState, (RemoveDebugDomain opts x d).state =
      removeDebugDomain x d := by
    intro x
    simp [RemoveDebugDomain, hredis]
  have hadd : addDebugDomain opts st now1 d ttl =
      { loggers := (d, ⟨newDebugLogger opts st.nextRef, some (now1 + ttl)⟩)
          :: st.loggers, nextRef := st.nextRef + 1 } := by
    simp [addDebugDomain, habs]
  have hloggers : (RemoveDebugDomain opts
      (AddDebugDomain opts st now1 d ttl).state d).state.loggers =
      st.loggers := by
    rw [h2, h1, hadd]
    simp [removeDebugDomain, List.eraseP_cons]
  have hlook : (RemoveDebugDomain opts
      (AddDebugDomain opts st now1 d ttl).state d).state.loggers.lookup d =
      none := by
    rw [hloggers]
    exact habs
  refine ⟨hloggers, ?_, ?_⟩
  · simp [WithDomain, hlook]
  · simp [DebugExpiration, hlook]

/-- Witness for C9: a concrete 5-minute activation round trip. -/
theorem claim_C9_witness :
    (RemoveDebugDomain localOpts (AddDebugDomain localOpts ⟨[], 0⟩ 100
        "example.com" 300000000000).state "example.com").state.loggers = [] ∧
    WithDomain (RemoveDebugDomain localOpts (AddDebugDomain localOpts ⟨[], 0⟩
        100 "example.com" 300000000000).state "example.com").state 200 wBase
        "example.com" =
      (⟨wBase, [("domain", "example.com")]⟩,
        (RemoveDebugDomain localOpts (AddDebugDomain localOpts ⟨[], 0⟩ 100
          "example.com" 300000000000).state "example.com").state) ∧
    DebugExpiration (RemoveDebugDomain localOpts (AddDebugDomain localOpts
        ⟨[], 0⟩ 100 "example.com" 300000000000).state "example.com").state
        "example.com" = none :=
  claim_C9_round_trip localOpts ⟨[], 0⟩ 100 200 300000000000 "example.com"
    wBase rfl (by norm_num) rfl

/-- C10: `DebugExpiration` performs no expiry check and no eviction: an
entry that is present but already expired still yields its stored past
expiry; nil is reported exactly when no entry exists — in particular after
an explicit removal or after `WithDomain`'s lazy eviction of an expired
entry (assuming the registry's keys are duplicate-free, as Go map
semantics guarantees). -/
theorem claim_C10_no_expiry_check (st : LoggerState) (d : String) :
    (∀ e t now, st.loggers.lookup d = some e → e.expiredAt = some t →
        e.Expired now = true → DebugExpiration st d = some t) ∧
    (st.loggers.lookup d = none → DebugExpiration st d = none) ∧
    ((st.loggers.map Prod.fst).Nodup →
        DebugExpiration (removeDebugDomain st d) d = none) ∧
    (∀ e now base, (st.loggers.map Prod.fst).Nodup →
        st.loggers.lookup d = some e → e.Expired now = true →
        DebugExpiration (WithDomain st now base d).2 d = none) := by
  refine ⟨?_, ?_, ?_, ?_⟩
  · intro e t now he het _
    simp [DebugExpiration, he, het]
  · intro h
    simp [DebugExpiration, h]
  · intro hnd
    simp [DebugExpiration, removeDebugDomain,
      lookup_eraseP_eq_none d st.loggers hnd]
  · intro e now base hnd he hexp
    have hsnd : (WithDomain st now base d).2 = removeDebugDomain st d := by
      simp [WithDomain, he, hexp]
    rw [hsnd]
    simp [DebugExpiration, removeDebugDomain,
      lookup_eraseP_eq_none d st.loggers hnd]

/-- Witness for C10: at instant 100 the entry of "d" (expiry 50) is
expired, yet `DebugExpiration` still reports 50; after the lazy eviction
performed by `WithDomain` it reports nil. -/
theorem claim_C10_witness :
    DebugExpiration wState "d" = some 50 ∧
    domainEntry.Expired ⟨wLogger, some 50⟩ 100 = true ∧
    DebugExpiration (WithDomain wState 100 wBase "d").2 "d" = none := by
  have h := claim_C10_no_expiry_check wState "d"
  exact ⟨h.1 ⟨wLogger, some 50⟩ 50 100 rfl rfl rfl, rfl,
    h.2.2.2 ⟨wLogger, some 50⟩ 100 wBase (by decide) rfl rfl⟩

/-- A redis client on which every command succeeds. -/
def okClient : RedisClient := ⟨fun _ _ => none, fun _ _ => none, fun _ => none⟩

/-- A redis client whose publish step fails. -/
def pubFailClient : RedisClient :=
  ⟨fun _ _ => some "pub down", fun _ _ => none, fun _ => none⟩

/-- A redis client whose set and del steps fail after a successful
publish. -/
def keyFailClient : RedisClient :=
  ⟨fun _ _ => none, fun _ _ => some "set down", fun _ => some "del down"⟩

/-- Distributed-mode options around a given client. -/
def distOpts (cli : RedisClient) : Options := ⟨false, "info", some cli⟩

/-- C5: in distributed mode both activate and deactivate publish first and
only then touch the durable key `"debug:"+domain`: a publish failure is
returned as the call's error with no durable-key command issued, and after
a successful publish the call returns the durable-key step's outcome, so a
failing set/del still fails the call. -/
theorem claim_C5_send_order (opts : Options) (cli : RedisClient)
    (st : LoggerState) (now ttl : Int) (d : String)
    (hredis : opts.redis = some cli) :
    (∀ e, cli.publishErr debugRedisAddChannel
          (d ++ "/" ++ durationString ttl) = some e →
        (AddDebugDomain opts st now d ttl).err = some e ∧
        (AddDebugDomain opts st now d ttl).ops =
          [RedisOp.publish debugRedisAddChannel
            (d ++ "/" ++ durationString ttl)]) ∧
    (cli.publishErr debugRedisAddChannel
          (d ++ "/" ++ durationString ttl) = none →
        (AddDebugDomain opts st now d ttl).ops =
          [RedisOp.publish debugRedisAddChannel (d ++ "/" ++ durationString ttl),
            RedisOp.set (debugRedisKeyPre ++ d) ttl] ∧
        (AddDebugDomain opts st now d ttl).err =
          cli.setErr (debugRedisKeyPre ++ d) ttl) ∧
    (∀ e, cli.publishErr debugRedisRmvChannel
          (d ++ "/" ++ durationString 0) = some e →
        (RemoveDebugDomain opts st d).err = some e ∧
        (RemoveDebugDomain opts st d).ops =
          [RedisOp.publish debugRedisRmvChannel
            (d ++ "/" ++ durationString 0)]) ∧
    (cli.publishErr debugRedisRmvChannel
          (d ++ "/" ++ durationString 0) = none →
        (RemoveDebugDomain opts st d).ops =
          [RedisOp.publish debugRedisRmvChannel (d ++ "/" ++ durationString 0),
            RedisOp.del (debugRedisKeyPre ++ d)] ∧
        (RemoveDebugDomain opts st d).err =
          cli.delErr (debugRedisKeyPre ++ d)) := by
  have hne : ¬ (debugRedisRmvChannel = debugRedisAddChannel) := by decide
  refine ⟨?_, ?_, ?_, ?_⟩
  · intro e hp
    simp [AddDebugDomain, hredis, publishDebug, hp]
  · intro hp
    simp [AddDebugDomain, hredis, publishDebug, hp]
  · intro e hp
    simp [RemoveDebugDomain, hredis, publishDebug, hp]
  · intro hp
    simp [RemoveDebugDomain, hredis, publishDebug, hp, hne]

/-- Witness for C5: a failing publish short-circuits; a failing set after a
successful publish still fails the call, with both commands issued in
publish-then-set order. -/
theorem claim_C5_witness :
    ((AddDebugDomain (distOpts pubFailClient) wState 0 "d" 0).err =
        some "pub down" ∧
      (AddDebugDomain (distOpts pubFailClient) wState 0 "d" 0).ops =
        [RedisOp.publish debugRedisAddChannel "d/0s"]) ∧
    ((AddDebugDomain (distOpts keyFailClient) wState 0 "d" 0).ops =
        [RedisOp.publish debugRedisAddChannel "d/0s",
          RedisOp.set "debug:d" 0] ∧
      (AddDebugDomain (distOpts keyFailClient) wState 0 "d" 0).err =
        some "set down") := by
  have h1 := (claim_C5_send_order (distOpts pubFailClient) pubFailClient
    wState 0 0 "d" rfl).1 "pub down" rfl
  have h2 := (claim_C5_send_order (distOpts keyFailClient) keyFailClient
    wState 0 0 "d" rfl).2.1 rfl
  exact ⟨⟨h1.1, h1.2.trans (by rfl)⟩, ⟨h2.1.trans (by rfl), h2.2⟩⟩

/-- Counterexample to C6: the deactivation message for "example.com" has
payload "example.com/0s" — the zero duration printed by
`time.Duration.String` — not "example.com/" with an empty ttl segment. -/
theorem claim_C6_counterexample :
    (RemoveDebugDomain (distOpts okClient) wState "example.com").ops =
      [RedisOp.publish debugRedisRmvChannel "example.com/0s",
        RedisOp.del "debug:example.com"] ∧
    "example.com/0s" ≠ "example.com/" := by
  exact ⟨rfl, by decide⟩

/-- C6 amended: the activation message carries payload
`"<domain>/<ttl-as-duration-string>"` on the add channel; the deactivation
message carries payload `"<domain>/0s"` (the zero duration's string
rendering, still unused by receivers) on the removal channel, not an empty
ttl segment. -/
theorem claim_C6_amended (opts : Options) (cli : RedisClient)
    (st : LoggerState) (now ttl : Int) (d : String)
    (hredis : opts.redis = some cli) :
    (AddDebugDomain opts st now d ttl).ops.head? =
      some (RedisOp.publish debugRedisAddChannel
        (d ++ "/" ++ durationString ttl)) ∧
    (RemoveDebugDomain opts st d).ops.head? =
      some (RedisOp.publish debugRedisRmvChannel
        (d ++ "/" ++ durationString 0)) ∧
    durationString 0 = "0s" := by
  have hne : ¬ (debugRedisRmvChannel = debugRedisAddChannel) := by decide
  refine ⟨?_, ?_, rfl⟩
  · simp only [AddDebugDomain, hredis, publishDebug]
    cases cli.publishErr debugRedisAddChannel (d ++ "/" ++ durationString ttl) with
    | none => simp
    | some e => simp
  · simp only [RemoveDebugDomain, hredis, publishDebug]
    cases cli.publishErr debugRedisRmvChannel (d ++ "/" ++ durationString 0) with
    | none => simp [hne]
    | some e => simp

/-- Witness for the amended C6: concrete payloads of a five-minute
activation and a deactivation of "example.com". -/
theorem claim_C6_amended_witness :
    (AddDebugDomain (distOpts okClient) wState 0 "example.com"
        300000000000).ops.head? =
      some (RedisOp.publish debugRedisAddChannel "example.com/5m0s") ∧
    (RemoveDebugDomain (distOpts okClient) wState "example.com").ops.head? =
      some (RedisOp.publish debugRedisRmvChannel "example.com/0s") := by
  have h := claim_C6_amended (distOpts okClient) okClient wState 0
    300000000000 "example.com" rfl
  exact ⟨h.1.trans (by rfl), h.2.1.trans (by rfl)⟩

/-- C7: one step of the subscription loop, for a payload splitting into a
domain and a ttl segment: an add-channel message performs the local
registry put with the parsed ttl (absolute expiry `now + ttl` for an
absent domain), an unparseable ttl segment degrades to a zero duration
instead of being rejected, and a removal-channel message performs the
local registry remove; the handler is a total function, so no payload
makes the loop fail. -/
theorem claim_C7_receive (opts : Options) (st : LoggerState) (now : Int)
    (msg : RedisMsg) (d ts : String)
    (hsplit : splitSlash msg.payload = [d, ts]) :
    (msg.channel = debugRedisAddChannel →
        handleDebugMsg opts st now msg =
          addDebugDomain opts st now d ((ParseDuration ts).getD 0)) ∧
    (msg.channel = debugRedisAddChannel → ParseDuration ts = none →
        handleDebugMsg opts st now msg = addDebugDomain opts st now d 0) ∧
    (msg.channel = debugRedisRmvChannel →
        handleDebugMsg opts st now msg = removeDebugDomain st d) ∧
    (∀ ttl, msg.channel = debugRedisAddChannel → ParseDuration ts = some ttl →
        st.loggers.lookup d = none →
        (handleDebugMsg opts st now msg).loggers.lookup d =
          some ⟨newDebugLogger opts st.nextRef, some (now + ttl)⟩) := by
  have hne : ¬ (debugRedisRmvChannel = debugRedisAddChannel) := by decide
  have hadd : msg.channel = debugRedisAddChannel →
      handleDebugMsg opts st now msg =
        addDebugDomain opts st now d ((ParseDuration ts).getD 0) := by
    intro hch
    simp [handleDebugMsg, hch, hsplit]
  refine ⟨hadd, ?_, ?_, ?_⟩
  · intro hch hpd
    rw [hadd hch, hpd]
    rfl
  · intro hch
    simp [handleDebugMsg, hch, hsplit, hne]
  · intro ttl hch hpd habs
    rw [hadd hch, hpd]
    exact lookup_addDebugDomain_self opts st now ttl d habs

/-- Witness for C7: an activation message with a parseable ttl, one with a
malformed ttl, and a deactivation message. -/
theorem claim_C7_witness :
    handleDebugMsg localOpts ⟨[], 0⟩ 100
        ⟨debugRedisAddChannel, "example.com/5m"⟩ =
      addDebugDomain localOpts ⟨[], 0⟩ 100 "example.com" 300000000000 ∧
    handleDebugMsg localOpts ⟨[], 0⟩ 100
        ⟨debugRedisAddChannel, "bad/morebad"⟩ =
      addDebugDomain localOpts ⟨[], 0⟩ 100 "bad" 0 ∧
    handleDebugMsg localOpts wState 100 ⟨debugRedisRmvChannel, "d/"⟩ =
      removeDebugDomain wState "d" ∧
    (handleDebugMsg localOpts ⟨[], 0⟩ 100
        ⟨debugRedisAddChannel, "example.com/5m"⟩).loggers.lookup
        "example.com" =
      some ⟨newDebugLogger localOpts 0, some 300000000100⟩ := by
  have h1 := claim_C7_receive localOpts ⟨[], 0⟩ 100
    ⟨debugRedisAddChannel, "example.com/5m"⟩ "example.com" "5m" rfl
  have h2 := claim_C7_receive localOpts ⟨[], 0⟩ 100
    ⟨debugRedisAddChannel, "bad/morebad"⟩ "bad" "morebad" rfl
  have h3 := claim_C7_receive localOpts wState 100
    ⟨debugRedisRmvChannel, "d/"⟩ "d" "" rfl
  refine ⟨?_, h2.2.1 rfl rfl, h3.2.2.1 rfl, ?_⟩
  · exact (h1.1 rfl).trans (by rfl)
  · exact (h1.2.2.2 300000000000 rfl rfl rfl).trans (by decide)

/-- C8: the bootstrap loader leaves the state untouched (and surfaces no
error, being a pure state transformer) when the key listing fails; a key
whose TTL query fails is skipped while the rest of the scan continues; a
key whose TTL query succeeds registers its trimmed domain exactly like a
local put with expiry `now +` the remaining ttl. -/
theorem claim_C8_bootstrap (opts : Options) (st : LoggerState) (now : Int)
    (ttlR : String → Except RErr Int) :
    (∀ e, loadDebug opts st now (.error e) ttlR = st) ∧
    (∀ k keys e, ttlR k = .error e →
        loadDebug opts st now (.ok (k :: keys)) ttlR =
          loadDebug opts st now (.ok keys) ttlR) ∧
    (∀ k keys t, ttlR k = .ok t →
        loadDebug opts st now (.ok (k :: keys)) ttlR =
          loadDebug opts (addDebugDomain opts st now
            (trimPre k debugRedisKeyPre) t) now (.ok keys) ttlR) ∧
    (∀ k t, ttlR k = .ok t →
        st.loggers.lookup (trimPre k debugRedisKeyPre) = none →
        (loadDebug opts st now (.ok [k]) ttlR).loggers.lookup
            (trimPre k debugRedisKeyPre) =
          some ⟨newDebugLogger opts st.nextRef, some (now + t)⟩) := by
  refine ⟨fun e => rfl, ?_, ?_, ?_⟩
  · intro k keys e hk
    simp [loadDebug, hk]
  · intro k keys t hk
    simp [loadDebug, hk]
  · intro k t hk habs
    have : loadDebug opts st now (.ok [k]) ttlR =
        addDebugDomain opts st now (trimPre k debugRedisKeyPre) t := by
      simp [loadDebug, hk]
    rw [this]
    exact lookup_addDebugDomain_self opts st now t _ habs

/-- Witness for C8: a listing failure leaves the registry alone; a key with
a dead TTL query is skipped while the next key still loads; a healthy key
registers its domain with expiry now + remaining ttl (30s here). -/
theorem claim_C8_witness :
    loadDebug localOpts wState 100 (.error "conn refused")
        (fun _ => .ok 5) = wState ∧
    loadDebug localOpts ⟨[], 0⟩ 100 (.ok ["debug:bar.org", "debug:foo.org"])
        (fun k => if k = "debug:foo.org" then .ok 30000000000
          else .error "gone") =
      loadDebug localOpts ⟨[], 0⟩ 100 (.ok ["debug:foo.org"])
        (fun k => if k = "debug:foo.org" then .ok 30000000000
          else .error "gone") ∧
    (loadDebug localOpts ⟨[], 0⟩ 100 (.ok ["debug:foo.org"])
        (fun k => if k = "debug:foo.org" then .ok 30000000000
          else .error "gone")).loggers.lookup "foo.org" =
      some ⟨newDebugLogger localOpts 0, some 30000000100⟩ := by
  have h := claim_C8_bootstrap localOpts ⟨[], 0⟩ 100
    (fun k => if k = "debug:foo.org" then .ok 30000000000 else .error "gone")
  refine ⟨claim_C8_bootstrap localOpts wState 100 (fun _ => .ok 5)
      |>.1 "conn refused", ?_, ?_⟩
  · exact h.2.1 "debug:bar.org" ["debug:foo.org"] "gone" rfl
  · have h4 := h.2.2.2 "debug:foo.org" 30000000000 rfl rfl
    have h5 : trimPre "debug:foo.org" debugRedisKeyPre = "foo.org" := rfl
    rw [h5] at h4
    exact h4.trans (by decide)

end CozyLogger
